import Mathlib

/-!
# Verification of the Excel-comparison pipeline (app.py)

Shallow embedding of the data model and operations of `app.py`:
header detection (`set_correct_headers`), the month/year date pre-pass
(`date_converter`), synonym-based column renaming (`rename_columns`),
row validation (`filter_valid_rows`), date coercion (`convert_date_column`),
fuzzy file matching (`match_files`), aggregation (`aggregate_data`) and the
comparison pipeline (`compare_data`) with its conditional-formatting
thresholds (`classifyDiff`).

Cells are modelled by an inductive `Cell` (string, integer number, datetime
value represented by its source string, and the missing-value sentinel `null`
standing for NaN/NaT/None).  A DataFrame is a `Table`: a list of column
labels plus a list of rows, positional, as in pandas.

Notes kept throughout the file:
* `app.py` references a `logging` module that is never imported, so every
  `logging.*` call raises `NameError` at run time; this defect is modelled
  where the claim under scrutiny is about exception behaviour
  (`read_files_from_upload`), and the log statements are omitted from the
  other definitions so that the data-flow logic can be stated.
* pandas `groupby` sorts group keys; group order is irrelevant to every
  theorem below, so groups are emitted in first-occurrence order here to
  avoid fixing an order on mixed-type cells.
-/

namespace ExcelApp

/-- A spreadsheet cell value: a string, a number, a datetime (represented by
the string it was parsed from), or the missing-value sentinel (NaN/NaT/None).
Numeric cells are modelled as integers: pandas holds floats, but every claim
below depends only on exact sums, differences and order comparisons of the
measure values, never on their divisions or rounding. -/
inductive Cell where
  | str (s : String)
  | num (n : Int)
  | date (s : String)
  | null
deriving DecidableEq, Repr

/-- A pandas DataFrame: column labels (which may themselves be strings or, for
a freshly read header-less sheet, integers) and data rows, positional. -/
structure Table where
  cols : List Cell
  rows : List (List Cell)
deriving DecidableEq, Repr

/-- Index of the first column label equal to `x` (pandas column lookup). -/
def idxOf? (x : Cell) : List Cell → Option Nat
  | [] => none
  | c :: cs => if c = x then some 0 else (idxOf? x cs).map (· + 1)

/-- Python `str(..)` as used by `.astype(str)`; only its action on the cells
actually reaching it matters to the claims. -/
def pyStr : Cell → String
  | Cell.str s => s
  | Cell.num n => toString n
  | Cell.date s => s
  | Cell.null => "nan"

/-- The literal module-level `column_mappings` dictionary of app.py
(lines 11-24): canonical column name to the list of source aliases. -/
def column_mappings : List (String × List String) :=
  [ ("Isin Code",
      ["ISIN", "Isin", "Share ISIN Reference", "FINANZINSTRUMENT_IDENT", "Text23"]),
    ("Provision",
      ["Comm. Amount", "Provision", "Betrag (€)", "Vergütung", "EURMonat",
       "Client Trailer Fees Amount In Consolidated Currency", "Amount In Agreement Ccy",
       "Bepro", "Provisionsbetrag in Währung", "Fee", "BPROV", "BpkEUR",
       "Kommissionsbetrag", "Commission Due Payment CCY", "Fee (Payment Currency)",
       "Amount In Partner Currency", "Betrag (EUR)"]),
    ("Date",
      ["Date", "Datum", "Booking Date", "End-Datum", "Period End Date",
       "Holding as of", "STICHTAG", "Period", "Datum_str", "Positionsdatum",
       "Stichtag", "Retrocession Date"]) ]

/-- Python `str.strip()`: remove leading and trailing whitespace (structural
character-list implementation). -/
def pyStrip (s : String) : String :=
  String.mk ((((s.toList.dropWhile Char.isWhitespace).reverse).dropWhile
    Char.isWhitespace).reverse)

/-- Python `str.lower()` (structural character-list implementation). -/
def lowerStr (s : String) : String :=
  String.mk (s.toList.map Char.toLower)

/-- Split a character list at every dot (the shape check used to model the
`'%d.%m.%Y'` strptime format). -/
def splitDots : List Char → List (List Char)
  | [] => [[]]
  | c :: cs =>
      let r := splitDots cs
      if c = '.' then [] :: r else (c :: r.headD []) :: r.tail

/-- Line 58: `any(header in row.values for headers in column_mappings.values()
for header in headers)` — the row contains some cell equal to a synonym string. -/
def rowHasSynonym (cm : List (String × List String)) (r : List Cell) : Bool :=
  cm.any fun p => p.2.any fun h => r.any fun c => decide (c = Cell.str h)

/-- Index of the first row satisfying `rowHasSynonym` (the `for i, row in
df.iterrows()` scan of lines 57-58). -/
def findHeaderIdx (cm : List (String × List String)) : List (List Cell) → Option Nat
  | [] => none
  | r :: rs => if rowHasSynonym cm r then some 0 else (findHeaderIdx cm rs).map (· + 1)

/-- `set_correct_headers` (app.py lines 55-62): the first row containing any
mapped column name becomes the column labels (`df.columns = df.iloc[i]`) and
that row alone is dropped (`df.drop(i).reset_index(drop=True)`); if no row
qualifies the table is returned unchanged. -/
def set_correct_headers (t : Table) (cm : List (String × List String)) : Table :=
  match findHeaderIdx cm t.rows with
  | some i => { cols := t.rows.getD i [], rows := t.rows.eraseIdx i }
  | none => t

/-- Column assignment `df[name] = vals` (pandas): replaces the values of an
existing column in place, or appends a new column on the right. -/
def setCol (t : Table) (name : String) (vals : List Cell) : Table :=
  match idxOf? (Cell.str name) t.cols with
  | some i => { t with rows := t.rows.zipWith (fun r v => r.set i v) vals }
  | none => { cols := t.cols ++ [Cell.str name],
              rows := t.rows.zipWith (fun r v => r ++ [v]) vals }

/-- Column read `df[name]` returning the cell list, `none` when absent. -/
def getCol (t : Table) (name : String) : Option (List Cell) :=
  (idxOf? (Cell.str name) t.cols).map fun i => t.rows.map fun r => r.getD i Cell.null

/-- `date_converter` (app.py lines 50-53): when both "Statement Month" and
"Statement Year" columns exist, synthesize `df["Date"]` from
`pd.to_datetime(month.astype(str) + '-' + year.astype(str), format='%m-%Y')`;
the parsed datetime is represented by the concatenated string it came from. -/
def date_converter (t : Table) : Table :=
  match idxOf? (Cell.str "Statement Month") t.cols, idxOf? (Cell.str "Statement Year") t.cols with
  | some mi, some yi =>
      setCol t "Date" (t.rows.map fun r =>
        Cell.date (pyStr (r.getD mi Cell.null) ++ "-" ++ pyStr (r.getD yi Cell.null)))
  | _, _ => t

/-- The `rename_dict` of `rename_columns` (app.py lines 66-70): for every
canonical name and every alias of it present among the column labels, the
binding alias ↦ canonical.  Python dict assignment means a later binding for
the same alias wins, hence `lookupLast` below. -/
def build_rename_dict (cols : List Cell) (cm : List (String × List String)) :
    List (String × String) :=
  cm.foldl (fun acc p =>
    acc ++ (p.2.filter fun old => decide (Cell.str old ∈ cols)).map fun old => (old, p.1)) []

/-- Last-binding-wins lookup, the dict semantics of `rename_dict[old] = new`. -/
def lookupLast (rd : List (String × String)) (k : String) : Option String :=
  rd.reverse.lookup k

/-- `rename_columns` (app.py lines 64-72): `df.rename(columns=rename_dict,
inplace=True)` — every column label with a binding in the dict is replaced by
its canonical name.  The `inplace=True` mutation is made explicit by the
callers (`aggregate_data`, `compare_data`) storing this result back into the
caller-supplied per-file dictionary. -/
def rename_columns (t : Table) (cm : List (String × List String)) : Table :=
  let rd := build_rename_dict t.cols cm
  { t with cols := t.cols.map fun c =>
      match c with
      | Cell.str s =>
          match lookupLast rd s with
          | some n => Cell.str n
          | none => Cell.str s
      | c => c }

/-- A non-missing cell (`dropna` keeps it). -/
def nonNull : Cell → Bool
  | Cell.null => false
  | _ => true

/-- Line 78: `isinstance(x, str) and x.strip() != ""`. -/
def validIsinCell : Cell → Bool
  | Cell.str s => decide (pyStrip s ≠ "")
  | _ => false

/-- `filter_valid_rows` (app.py lines 74-79): when both 'Isin Code' and 'Date'
columns exist, drop rows with a missing value in either
(`dropna(subset=['Isin Code', 'Date'])`), then keep only rows whose
'Isin Code' is a string with non-empty strip; otherwise return unchanged. -/
def filter_valid_rows (t : Table) : Table :=
  match idxOf? (Cell.str "Isin Code") t.cols, idxOf? (Cell.str "Date") t.cols with
  | some ii, some di =>
      let r1 := t.rows.filter fun r =>
        nonNull (r.getD ii Cell.null) && nonNull (r.getD di Cell.null)
      { t with rows := r1.filter fun r => validIsinCell (r.getD ii Cell.null) }
  | _, _ => t

/-- All-digit non-empty character list. -/
def isDigitChars (cs : List Char) : Bool := decide (cs.length > 0) && cs.all Char.isDigit

/-- Whether a string matches the shape of the `'%d.%m.%Y'` format (an
approximation of strptime sufficient for the claims, none of which depends on
the exact calendar validation). -/
def looksDDMMYYYY (s : String) : Bool :=
  match splitDots s.toList with
  | [d, m, y] => isDigitChars d && isDigitChars m && isDigitChars y && decide (y.length = 4)
  | _ => false

/-- `pd.to_datetime(x, errors='coerce', format='%d.%m.%Y')` applied to one
cell: datetimes pass through, matching strings parse, everything else is
coerced to the missing sentinel (NaT). -/
def parseDateCell : Cell → Cell
  | Cell.date s => Cell.date s
  | Cell.str s => if looksDDMMYYYY s then Cell.date s else Cell.null
  | _ => Cell.null

/-- `convert_date_column` (app.py lines 81-84): in-place coercion of the named
column to datetime when it exists. -/
def convert_date_column (t : Table) (name : String) : Table :=
  match idxOf? (Cell.str name) t.cols with
  | some i =>
      { t with rows := t.rows.map fun r => r.set i (parseDateCell (r.getD i Cell.null)) }
  | none => t

/-- Classification of a difference against the tolerance band. -/
inductive DiffClass where
  | below_threshold
  | within_tolerance
  | above_threshold
deriving DecidableEq, Repr

/-- The `CellIsRule(operator='lessThan', formula=[str(lower_threshold)])` rule
of `apply_conditional_formatting` (app.py line 199), generic in the ordered
numeric type of the difference cell. -/
def lowerRuleFires {A : Type} [LinearOrder A] (d lower : A) : Bool := decide (d < lower)

/-- The `CellIsRule(operator='greaterThan', formula=[str(upper_threshold)])`
rule of `apply_conditional_formatting` (app.py line 203). -/
def upperRuleFires {A : Type} [LinearOrder A] (d upper : A) : Bool := decide (d > upper)

/-- The classification induced by the two formatting rules: flagged below the
band iff strictly less than the lower threshold, above iff strictly greater
than the upper threshold, within tolerance otherwise. -/
def classifyDiff {A : Type} [LinearOrder A] (d lower upper : A) : DiffClass :=
  if lowerRuleFires d lower then DiffClass.below_threshold
  else if upperRuleFires d upper then DiffClass.above_threshold
  else DiffClass.within_tolerance

/-- `os.path.splitext(p)[0]` for a bare file name: everything before the last
dot, provided some non-dot character precedes that dot (so ".bashrc" keeps
its leading-dot name whole). -/
def splitextBase (p : String) : String :=
  let cs := p.toList
  match cs.reverse.findIdx? (fun c => decide (c = '.')) with
  | none => p
  | some r =>
      let j := cs.length - 1 - r
      if (cs.take j).any (fun c => decide (c ≠ '.')) then String.mk (cs.take j) else p

/-- Python `max` over (candidate, score) pairs keyed by score: the first
candidate attaining the maximal score wins, a later candidate replaces the
current best only on a strictly greater score.  This is the behaviour of
`process.extractOne` (which returns `None`, here `none`, on no candidates).
The similarity scorer is abstracted as a parameter `score`; app.py
instantiates it with the fuzzywuzzy 0-100 scale scorer. -/
def bestOf (score : String → String → Nat) (q : String) :
    List String → Option (String × Nat)
  | [] => none
  | c :: cs => some (cs.foldl
      (fun b c2 => if score q c2 > b.2 then (c2, score q c2) else b)
      (c, score q c))

/-- `match_files` (app.py lines 100-110): for each Fundline file, score its
extension-stripped lowercased base name against every candidate base name,
and emit a pair with the first file realizing the best candidate exactly when
the best score strictly exceeds 80.  `process.extractOne` on an empty
candidate list returns `None` and the unpacking at line 105 then raises
(`TypeError`), modelled by `Except.error`; the `next(...)` at line 107 would
likewise raise `StopIteration` if no file matched the returned candidate.
The `logging.info` at line 109 is omitted (see `read_files_from_upload`). -/
def match_files (score : String → String → Nat) :
    List String → List String → Except String (List (String × String))
  | [], _ => Except.ok []
  | f :: fs, excel_files =>
      match bestOf score (lowerStr (splitextBase f))
          (excel_files.map fun e => lowerStr (splitextBase e)) with
      | none => Except.error "TypeError: cannot unpack non-sequence NoneType"
      | some (best_match, sc) =>
          match match_files score fs excel_files with
          | Except.error e => Except.error e
          | Except.ok rest =>
              if sc > 80 then
                match excel_files.find?
                    (fun e => decide (lowerStr (splitextBase e) = best_match)) with
                | some e => Except.ok ((f, e) :: rest)
                | none => Except.error "StopIteration"
              else
                Except.ok rest

/-- Numeric content of a cell, as summed by the pandas `groupby(...).sum()`
calls; every measure cell reaching a sum in the claims below is numeric. -/
def cellInt : Cell → Int
  | Cell.num n => n
  | _ => 0

/-- Key tuple of a row at the given column indices. -/
def keyAt (idxs : List Nat) (r : List Cell) : List Cell :=
  idxs.map fun i => r.getD i Cell.null

/-- Distinct key tuples in first-occurrence order (pandas sorts group keys;
no theorem below depends on the order of groups). -/
def distinctKeys (ks : List (List Cell)) : List (List Cell) :=
  ks.foldl (fun acc k => if k ∈ acc then acc else acc ++ [k]) []

/-- Pandas column lookup raising `KeyError` on a missing label. -/
def colIdxE (t : Table) (name : String) : Except String Nat :=
  match idxOf? (Cell.str name) t.cols with
  | some i => Except.ok i
  | none => Except.error ("KeyError: " ++ name)

/-- Column lookup for a list of labels, failing on the first missing one. -/
def colIdxsE (t : Table) : List String → Except String (List Nat)
  | [] => Except.ok []
  | k :: ks =>
      match colIdxE t k with
      | Except.error e => Except.error e
      | Except.ok i =>
          match colIdxsE t ks with
          | Except.error e => Except.error e
          | Except.ok rest => Except.ok (i :: rest)

/-- The table produced by `groupby(keys)[val].sum().reset_index()` once the
column indices are known: rows whose key contains a missing value are excluded
(pandas drops NaN group keys), remaining rows are partitioned by their key
tuple and the measure summed per group; the result has the key columns
followed by the summed measure column. -/
def groupbySumCore (t : Table) (kIdxs : List Nat) (vi : Nat)
    (keys : List String) (val : String) : Table :=
  let live := t.rows.filter fun r => (keyAt kIdxs r).all nonNull
  let ks := distinctKeys (live.map (keyAt kIdxs))
  { cols := keys.map Cell.str ++ [Cell.str val],
    rows := ks.map fun k =>
      k ++ [Cell.num (((live.filter fun r => decide (keyAt kIdxs r = k)).map
              fun r => cellInt (r.getD vi Cell.null)).foldl (· + ·) 0)] }

/-- `df.groupby(keys)[val].sum().reset_index()`; a missing key or measure
column raises `KeyError`. -/
def groupbySum (t : Table) (keys : List String) (val : String) : Except String Table :=
  match colIdxsE t keys with
  | Except.error e => Except.error e
  | Except.ok kIdxs =>
      match colIdxE t val with
      | Except.error e => Except.error e
      | Except.ok vi => Except.ok (groupbySumCore t kIdxs vi keys val)

/-- The inner-join table once the key column indices on both sides are known:
for each left row, the right rows with an equal key tuple, each contributing
its non-key cells to the right of the left row. -/
def mergeInnerCore (t1 t2 : Table) (k1 k2 : List Nat) : Table :=
  let nonKey2 := (List.range t2.cols.length).filter fun i => decide (i ∉ k2)
  { cols := t1.cols ++ nonKey2.map fun i => t2.cols.getD i Cell.null,
    rows := (t1.rows.map fun r1 =>
      (t2.rows.filter fun r2 => decide (keyAt k1 r1 = keyAt k2 r2)).map fun r2 =>
        r1 ++ nonKey2.map fun i => r2.getD i Cell.null).flatten }

/-- `pd.merge(t1, t2, on=keys, how='inner')`.  In every use below the only
column names shared by the two tables are the keys, so the `suffixes=(..)`
renaming never fires and is not modelled.  A missing key column raises
`KeyError`. -/
def mergeInner (t1 t2 : Table) (keys : List String) : Except String Table :=
  match colIdxsE t1 keys with
  | Except.error e => Except.error e
  | Except.ok k1 =>
      match colIdxsE t2 keys with
      | Except.error e => Except.error e
      | Except.ok k2 => Except.ok (mergeInnerCore t1 t2 k1 k2)

/-- Float coercion of a cell list: every cell must be numeric (the cells
reaching it in app.py are `groupby(..).sum()` outputs); otherwise
`ValueError` is raised. -/
def cellsToFloats : List Cell → Except String (List Int)
  | [] => Except.ok []
  | Cell.num n :: cs =>
      match cellsToFloats cs with
      | Except.error e => Except.error e
      | Except.ok rest => Except.ok (n :: rest)
  | _ :: _ => Except.error "ValueError: could not convert value to float"

/-- `df[col].astype(float)` (app.py lines 151-152). -/
def astypeFloatCol (t : Table) (name : String) : Except String (List Int) :=
  match colIdxE t name with
  | Except.error e => Except.error e
  | Except.ok i => cellsToFloats (t.rows.map fun r => r.getD i Cell.null)

/-- A numeric column read, as consumed by the pandas column subtraction at
app.py line 166 (raising on a missing column or non-numeric cell). -/
def ratCol (t : Table) (name : String) : Except String (List Int) :=
  astypeFloatCol t name

/-- `df[[c1, .., cn]]`: column projection, `KeyError` on a missing name. -/
def selectCols (t : Table) (names : List String) : Except String Table :=
  match colIdxsE t names with
  | Except.error e => Except.error e
  | Except.ok idxs =>
      Except.ok { cols := names.map Cell.str,
                  rows := t.rows.map fun r => idxs.map fun i => r.getD i Cell.null }

/-- Decidable equality for `Except`, so that concrete pipeline runs can be
settled by `decide`. -/
instance {E A : Type} [DecidableEq E] [DecidableEq A] : DecidableEq (Except E A) :=
  fun x y =>
    match x, y with
    | Except.error a, Except.error b =>
        if h : a = b then isTrue (by rw [h]) else isFalse (by simp [h])
    | Except.ok a, Except.ok b =>
        if h : a = b then isTrue (by rw [h]) else isFalse (by simp [h])
    | Except.error _, Except.ok _ => isFalse (by simp)
    | Except.ok _, Except.error _ => isFalse (by simp)

/-- One output workbook of `compare_data`: its file name, the `Quartal`
(summary) sheet, the `Einzeln` (detail) sheet, and the classifications of the
two difference columns induced by `apply_conditional_formatting` with the
thresholds (-20, 20) passed at app.py lines 177-178. -/
structure Artifact where
  name : String
  quartal : Table
  einzeln : Table
  quartalFlags : List DiffClass
  einzelnFlags : List DiffClass
deriving DecidableEq, Repr

/-- Per-file table store, the shallow embedding of the `files_data`
dictionaries; keys are file names, values DataFrames. -/
abbrev FileData := List (String × Table)

/-- The body of the `for fundline_file, excel_file in matched_files` loop of
`compare_data` (app.py lines 120-184) for one matched pair, returning the
optional artifact together with the two tables as mutated in place by
`rename_columns` (lines 125-126, `inplace=True`) and `convert_date_column`
(lines 129-130, column assignment).  The `groupby` calls of lines 132-133 run
BEFORE the required-column check of line 136, so a missing column raises
`KeyError` there; after `reset_index()` the grouped tables always contain
'Isin Code' and 'Date', making the `else` report of line 184 unreachable.
An empty merged comparison (line 169 `if not comparison_df.empty`) yields no
artifact. -/
def processPair (cm : List (String × List String)) (fundline_file excel_file : String)
    (fdf0 edf0 : Table) : Except String (Option Artifact × Table × Table) :=
  let fdf := convert_date_column (rename_columns fdf0 cm) "Date"
  let edf := convert_date_column (rename_columns edf0 cm) "Date"
  match groupbySum fdf ["Isin Code", "Date"] "Erwartete Prov. Whg" with
  | Except.error e => Except.error e
  | Except.ok fg =>
  match groupbySum edf ["Isin Code", "Date"] "Provision" with
  | Except.error e => Except.error e
  | Except.ok eg =>
  if (Cell.str "Isin Code" ∈ fg.cols ∧ Cell.str "Date" ∈ fg.cols ∧
      Cell.str "Isin Code" ∈ eg.cols ∧ Cell.str "Date" ∈ eg.cols) then
    match mergeInner fg eg ["Isin Code", "Date"] with
    | Except.error e => Except.error e
    | Except.ok comparison0 =>
    let fundline_column :=
      if Cell.str "Erwartete Prov. Whg_Fundline" ∈ comparison0.cols
      then "Erwartete Prov. Whg_Fundline" else "Erwartete Prov. Whg"
    let excel_column :=
      if Cell.str "Provision_Excel" ∈ comparison0.cols
      then "Provision_Excel" else "Provision"
    match astypeFloatCol comparison0 fundline_column with
    | Except.error e => Except.error e
    | Except.ok fvals =>
    match astypeFloatCol comparison0 excel_column with
    | Except.error e => Except.error e
    | Except.ok evals =>
    let comparison1 := setCol (setCol comparison0 fundline_column (fvals.map Cell.num))
      excel_column (evals.map Cell.num)
    let diffs := List.zipWith (fun e f => e - f) evals fvals
    let comparison := setCol comparison1 "Difference" (diffs.map Cell.num)
    match groupbySum fg ["Isin Code"] "Erwartete Prov. Whg" with
    | Except.error e => Except.error e
    | Except.ok fq =>
    match groupbySum eg ["Isin Code"] "Provision" with
    | Except.error e => Except.error e
    | Except.ok eq2 =>
    match mergeInner fq eq2 ["Isin Code"] with
    | Except.error e => Except.error e
    | Except.ok quartal0 =>
    match ratCol quartal0 "Provision" with
    | Except.error e => Except.error e
    | Except.ok qp =>
    match ratCol quartal0 "Erwartete Prov. Whg" with
    | Except.error e => Except.error e
    | Except.ok qe =>
    let qdiffs := List.zipWith (fun p e => p - e) qp qe
    let quartal := setCol quartal0 "Difference" (qdiffs.map Cell.num)
    if comparison.rows.isEmpty then
      Except.ok (none, fdf, edf)
    else
      match selectCols comparison
          ["Isin Code", "Date", fundline_column, excel_column, "Difference"] with
      | Except.error e => Except.error e
      | Except.ok einzeln =>
          Except.ok (some
            { name := splitextBase fundline_file ++ "_" ++ splitextBase excel_file
                ++ "_comparison.xlsx",
              quartal := quartal,
              einzeln := einzeln,
              quartalFlags := qdiffs.map fun d => classifyDiff d (-20) 20,
              einzelnFlags := diffs.map fun d => classifyDiff d (-20) 20 }, fdf, edf)
  else
    Except.ok (none, fdf, edf)

/-- Store a table back under its key, the explicit-state rendering of the
in-place DataFrame mutation seen by the caller-supplied dictionary. -/
def storeTable (fd : FileData) (k : String) (t : Table) : FileData :=
  fd.map fun p => if p.1 = k then (p.1, t) else p

/-- The `for fundline_file, excel_file in matched_files` loop of
`compare_data`, threading the two per-file dictionaries (mutated in place by
each iteration) and collecting the artifacts; a raised exception
(`Except.error`) aborts the whole loop, leaving later pairs unprocessed. -/
def compare_fold (cm : List (String × List String)) :
    List (String × String) → List Artifact × FileData × FileData →
      Except String (List Artifact × FileData × FileData)
  | [], acc => Except.ok acc
  | pr :: rest, acc =>
      match acc.2.1.lookup pr.1 with
      | none => Except.error ("KeyError: " ++ pr.1)
      | some fdf =>
      match acc.2.2.lookup pr.2 with
      | none => Except.error ("KeyError: " ++ pr.2)
      | some edf =>
      match processPair cm pr.1 pr.2 fdf edf with
      | Except.error e => Except.error e
      | Except.ok r =>
          compare_fold cm rest
            (acc.1 ++ r.1.toList,
              storeTable acc.2.1 pr.1 r.2.1, storeTable acc.2.2 pr.2 r.2.2)

/-- `compare_data` (app.py lines 112-186): match the two file-name sets, then
run the per-pair loop over the matched pairs. -/
def compare_data (score : String → String → Nat) (fundline_data excel_data : FileData)
    (cm : List (String × List String)) :
    Except String (List Artifact × FileData × FileData) :=
  match match_files score (fundline_data.map Prod.fst) (excel_data.map Prod.fst) with
  | Except.error e => Except.error e
  | Except.ok matched => compare_fold cm matched ([], fundline_data, excel_data)

/-- The per-file body of `aggregate_data` (app.py lines 89-97): rename
columns in place (the stored table becomes the renamed one), validate rows,
and when both 'Isin Code' and the measure column survive, group by
'Isin Code' and sum.  (In app.py the `else:` branch at lines 96-97 contains
only a comment — a syntax error as committed; the evident intent, do nothing
for that file, is modelled.) -/
def aggregate_step (column_name : String) (acc : FileData × FileData)
    (p : String × Table) : FileData × FileData :=
  let df := rename_columns p.2 column_mappings
  let st := storeTable acc.2 p.1 df
  let dfv := filter_valid_rows df
  if (Cell.str "Isin Code" ∈ dfv.cols ∧ Cell.str column_name ∈ dfv.cols) then
    match groupbySum dfv ["Isin Code"] column_name with
    | Except.ok a => (acc.1 ++ [(p.1, a)], st)
    | Except.error _ => (acc.1, st)
  else (acc.1, st)

/-- `aggregate_data` (app.py lines 86-98): the first component is the
aggregated dictionary, the second the caller's dictionary after the in-place
mutation of each stored table. -/
def aggregate_data (data : FileData) (column_name : String) : FileData × FileData :=
  data.foldl (aggregate_step column_name) ([], data)

/-- The per-file sheet loop of `read_files_from_upload` (app.py lines 32-42):
the first sheet goes through `date_converter` then `set_correct_headers`; the
columns of every later sheet are overwritten with the first sheet's columns
(line 41, header detection is not re-run) and rows are concatenated with
`ignore_index=True`. -/
def read_one_file (sheets : List Table) : Table :=
  match sheets with
  | [] => { cols := [], rows := [] }
  | first :: rest =>
      let h := set_correct_headers (date_converter first) column_mappings
      { cols := h.cols,
        rows := h.rows ++ (rest.map fun t => (date_converter t).rows).flatten }

/-- `read_files_from_upload` (app.py lines 26-48).  `app.py` never imports
`logging`, so for every uploaded file the `logging.info` call at line 43
raises `NameError` inside the `try` block (after the first sheet has been
read), the handler at line 47 then evaluates `logging.error` and raises the
same `NameError`, which escapes the function.  Hence the function returns the
empty dictionary on an empty batch and otherwise propagates `NameError`. -/
def read_files_from_upload (uploaded_files : List (String × List Table)) :
    Except String FileData :=
  match uploaded_files with
  | [] => Except.ok []
  | _ => Except.error "NameError: name 'logging' is not defined"

/-- The result rendering of the Streamlit UI (app.py lines 239-246): download
buttons when some artifact exists, otherwise the text "No discrepancies
found." — the only signal distinguishing outcomes of a completed run. -/
def render_results (artifacts : List Artifact) : String :=
  if artifacts.isEmpty then "No discrepancies found." else "Comparison results:"

/-! ## Helper lemmas -/

theorem findHeaderIdx_eq_none (cm : List (String × List String)) :
    ∀ {rs : List (List Cell)}, (∀ r ∈ rs, rowHasSynonym cm r = false) →
      findHeaderIdx cm rs = none := by
  intro rs h
  induction rs with
  | nil => rfl
  | cons r rs ih =>
      have hr : rowHasSynonym cm r = false := h r (List.mem_cons_self r rs)
      have hrest : findHeaderIdx cm rs = none :=
        ih fun x hx => h x (List.mem_cons_of_mem r hx)
      simp [findHeaderIdx, hr, hrest]

theorem findHeaderIdx_eq_some (cm : List (String × List String)) :
    ∀ (rs : List (List Cell)) (i : Nat), i < rs.length →
      rowHasSynonym cm (rs.getD i []) = true →
      (∀ j, j < i → rowHasSynonym cm (rs.getD j []) = false) →
      findHeaderIdx cm rs = some i
  | [], i, hi, _, _ => absurd hi (by simp)
  | r :: rs, 0, _, hp, _ => by
      simp only [List.getD_cons_zero] at hp
      simp [findHeaderIdx, hp]
  | r :: rs, i + 1, hi, hp, hmin => by
      have h0 : rowHasSynonym cm r = false := by
        have := hmin 0 (Nat.succ_pos i)
        simpa using this
      have hrec : findHeaderIdx cm rs = some i :=
        findHeaderIdx_eq_some cm rs i (by simpa using hi) (by simpa using hp)
          (fun j hj => by
            have := hmin (j + 1) (Nat.succ_lt_succ hj)
            simpa using this)
      simp [findHeaderIdx, h0, hrec]

/-- A table none of whose rows contains a synonym cell passes through the
Header Resolver unchanged. -/
theorem set_correct_headers_of_no_synonym (t : Table) (cm : List (String × List String))
    (h : ∀ r ∈ t.rows, rowHasSynonym cm r = false) : set_correct_headers t cm = t := by
  unfold set_correct_headers
  rw [findHeaderIdx_eq_none cm h]

theorem nonNull_iff {c : Cell} : nonNull c = true ↔ c ≠ Cell.null := by
  cases c <;> simp [nonNull]

theorem validIsinCell_iff {c : Cell} :
    validIsinCell c = true ↔ ∃ s, c = Cell.str s ∧ pyStrip s ≠ "" := by
  cases c <;> simp [validIsinCell]

/-! ## Claim C3 — strict threshold comparison (confirmed) -/

/-- Claim C3: with the default thresholds (-20, 20) of app.py lines 177-178,
a difference is flagged below the band iff it is strictly below -20 and above
the band iff strictly above 20 (each by the corresponding `CellIsRule`), and a
difference exactly equal to -20 or to 20 is classified within tolerance. -/
theorem classify_default_thresholds_strict (d : Rat) :
    (classifyDiff d (-20) 20 = DiffClass.below_threshold ↔ d < -20) ∧
    (classifyDiff d (-20) 20 = DiffClass.above_threshold ↔ 20 < d) ∧
    (classifyDiff d (-20) 20 = DiffClass.within_tolerance ↔ -20 ≤ d ∧ d ≤ 20) ∧
    (lowerRuleFires d (-20) = true ↔ d < -20) ∧
    (upperRuleFires d 20 = true ↔ 20 < d) ∧
    classifyDiff (-20 : Rat) (-20) 20 = DiffClass.within_tolerance ∧
    classifyDiff (20 : Rat) (-20) 20 = DiffClass.within_tolerance := by
  have hcls : ∀ x : Rat, classifyDiff x (-20) 20 =
      if x < -20 then DiffClass.below_threshold
      else if 20 < x then DiffClass.above_threshold
      else DiffClass.within_tolerance := by
    intro x
    unfold classifyDiff lowerRuleFires upperRuleFires
    by_cases h1 : x < -20 <;> by_cases h2 : (20 : Rat) < x <;> simp [h1, h2]
  refine ⟨?_, ?_, ?_, by simp [lowerRuleFires], by simp [upperRuleFires], ?_, ?_⟩
  · rw [hcls]
    split_ifs with h1 h2
    · simp [h1]
    · simp [h1]
    · simp [h1]
  · rw [hcls]
    split_ifs with h1 h2
    · have hno : ¬(20 : Rat) < d := by linarith
      simp [hno]
    · simp [h2]
    · simp [h2]
  · rw [hcls]
    split_ifs with h1 h2
    · have hno : ¬(-20 : Rat) ≤ d := not_le.mpr h1
      simp [hno]
    · have hno : ¬d ≤ (20 : Rat) := not_le.mpr h2
      simp [hno]
    · simp [not_lt.mp h1, not_lt.mp h2]
  · rw [hcls]
    norm_num
  · rw [hcls]
    norm_num

/-! ## Claim C4 — header row selection (confirmed) -/

/-- Claim C4: the Header Resolver selects the first row (in row order)
containing at least one cell equal to some synonym string of any canonical
field, makes that row's cell values the column names and removes exactly that
row from the data; when no row contains a synonym the table is unchanged. -/
theorem header_resolver_spec (t : Table) (cm : List (String × List String)) :
    (∀ i, i < t.rows.length → rowHasSynonym cm (t.rows.getD i []) = true →
      (∀ j, j < i → rowHasSynonym cm (t.rows.getD j []) = false) →
      set_correct_headers t cm =
        { cols := t.rows.getD i [], rows := t.rows.eraseIdx i }) ∧
    ((∀ r ∈ t.rows, rowHasSynonym cm r = false) → set_correct_headers t cm = t) := by
  constructor
  · intro i hi hp hmin
    unfold set_correct_headers
    rw [findHeaderIdx_eq_some cm t.rows i hi hp hmin]
  · exact set_correct_headers_of_no_synonym t cm

/-- Witness for C4 at a concrete raw sheet: the second row is the first one
containing a synonym ("ISIN"), so it is promoted and removed while the junk
row above it stays in the data. -/
theorem header_resolver_spec_witness :
    set_correct_headers
      { cols := [Cell.num 0, Cell.num 1],
        rows := [[Cell.str "junk", Cell.null],
                 [Cell.str "ISIN", Cell.str "Datum"],
                 [Cell.str "DE0001", Cell.str "x"]] } column_mappings =
      { cols := [Cell.str "ISIN", Cell.str "Datum"],
        rows := [[Cell.str "junk", Cell.null], [Cell.str "DE0001", Cell.str "x"]] } :=
  (header_resolver_spec
    { cols := [Cell.num 0, Cell.num 1],
      rows := [[Cell.str "junk", Cell.null],
               [Cell.str "ISIN", Cell.str "Datum"],
               [Cell.str "DE0001", Cell.str "x"]] } column_mappings).1
    1 (by decide) (by decide) (by decide)

/-! ## Claim C9 — header resolution is not idempotent in general (corrected) -/

/-- Counterexample to C9 as stated: on a table whose data row still contains a
synonym string (here a duplicated header row, exactly what concatenating a
second sheet can produce), a second run of the Header Resolver re-promotes
that data row instead of being a no-op. -/
theorem header_resolver_not_idempotent :
    set_correct_headers
        (set_correct_headers
          { cols := [Cell.num 0, Cell.num 1],
            rows := [[Cell.str "ISIN", Cell.str "Provision"],
                     [Cell.str "ISIN", Cell.str "Provision"]] } column_mappings)
        column_mappings ≠
      set_correct_headers
        { cols := [Cell.num 0, Cell.num 1],
          rows := [[Cell.str "ISIN", Cell.str "Provision"],
                   [Cell.str "ISIN", Cell.str "Provision"]] } column_mappings := by
  decide

/-- Claim C9 (amended): re-running the Header Resolver on a table whose header
row has been promoted is a no-op provided none of the remaining data rows
contains a cell equal to a synonym string; without that proviso the first such
data row is re-promoted (see the counterexample). -/
theorem header_resolver_idempotent_on_clean (t : Table) (cm : List (String × List String))
    (h : ∀ r ∈ (set_correct_headers t cm).rows, rowHasSynonym cm r = false) :
    set_correct_headers (set_correct_headers t cm) cm = set_correct_headers t cm :=
  set_correct_headers_of_no_synonym (set_correct_headers t cm) cm h

/-- Witness for the amended C9: after promoting the header of a concrete raw
sheet whose data rows are synonym-free, a second run changes nothing. -/
theorem header_resolver_idempotent_on_clean_witness :
    set_correct_headers
        (set_correct_headers
          { cols := [Cell.num 0, Cell.num 1],
            rows := [[Cell.str "ISIN", Cell.str "Datum"],
                     [Cell.str "DE0001", Cell.str "31.01.2024"]] } column_mappings)
        column_mappings =
      set_correct_headers
        { cols := [Cell.num 0, Cell.num 1],
          rows := [[Cell.str "ISIN", Cell.str "Datum"],
                   [Cell.str "DE0001", Cell.str "31.01.2024"]] } column_mappings :=
  header_resolver_idempotent_on_clean
    { cols := [Cell.num 0, Cell.num 1],
      rows := [[Cell.str "ISIN", Cell.str "Datum"],
               [Cell.str "DE0001", Cell.str "31.01.2024"]] } column_mappings
    (by decide)

/-! ## Claim C5 — row validation (confirmed) -/

/-- Claim C5: on a mapped table having the canonical 'Isin Code' and 'Date'
columns, a row survives `filter_valid_rows` iff its identifier cell is a
string that is non-empty after trimming surrounding whitespace and its period
cell is non-missing; rows with missing identifier or period, whitespace-only
identifiers, or non-string (e.g. numeric) identifiers are dropped, and the
filter is a total function returning a possibly-empty table. -/
theorem row_filter_spec (t : Table) (ii di : Nat)
    (hI : idxOf? (Cell.str "Isin Code") t.cols = some ii)
    (hD : idxOf? (Cell.str "Date") t.cols = some di) (r : List Cell) :
    r ∈ (filter_valid_rows t).rows ↔
      r ∈ t.rows ∧ (∃ s, r.getD ii Cell.null = Cell.str s ∧ pyStrip s ≠ "") ∧
        r.getD di Cell.null ≠ Cell.null := by
  simp only [filter_valid_rows, hI, hD, List.mem_filter, Bool.and_eq_true,
    nonNull_iff, validIsinCell_iff]
  constructor
  · rintro ⟨⟨hr, _, hd⟩, hv⟩
    exact ⟨hr, hv, hd⟩
  · rintro ⟨hr, ⟨s, hs, hne⟩, hd⟩
    refine ⟨⟨hr, ?_, hd⟩, s, hs, hne⟩
    rw [hs]
    simp

/-- Witness for C5 on a concrete mapped table: a row with a proper string
identifier and a date survives, a row with a numeric identifier does not. -/
theorem row_filter_spec_witness :
    ([Cell.str "DE0001", Cell.date "31.01.2024"] ∈
        (filter_valid_rows
          { cols := [Cell.str "Isin Code", Cell.str "Date"],
            rows := [[Cell.str "DE0001", Cell.date "31.01.2024"],
                     [Cell.num 5, Cell.date "31.01.2024"],
                     [Cell.str "  ", Cell.date "31.01.2024"],
                     [Cell.str "FR0001", Cell.null]] }).rows) ∧
    [Cell.num 5, Cell.date "31.01.2024"] ∉
      (filter_valid_rows
        { cols := [Cell.str "Isin Code", Cell.str "Date"],
          rows := [[Cell.str "DE0001", Cell.date "31.01.2024"],
                   [Cell.num 5, Cell.date "31.01.2024"],
                   [Cell.str "  ", Cell.date "31.01.2024"],
                   [Cell.str "FR0001", Cell.null]] }).rows := by
  constructor
  · exact (row_filter_spec
      { cols := [Cell.str "Isin Code", Cell.str "Date"],
        rows := [[Cell.str "DE0001", Cell.date "31.01.2024"],
                 [Cell.num 5, Cell.date "31.01.2024"],
                 [Cell.str "  ", Cell.date "31.01.2024"],
                 [Cell.str "FR0001", Cell.null]] } 0 1 (by decide) (by decide)
      [Cell.str "DE0001", Cell.date "31.01.2024"]).mpr
      ⟨by decide, ⟨"DE0001", rfl, by decide⟩, by decide⟩
  · intro hmem
    have h := (row_filter_spec
      { cols := [Cell.str "Isin Code", Cell.str "Date"],
        rows := [[Cell.str "DE0001", Cell.date "31.01.2024"],
                 [Cell.num 5, Cell.date "31.01.2024"],
                 [Cell.str "  ", Cell.date "31.01.2024"],
                 [Cell.str "FR0001", Cell.null]] } 0 1 (by decide) (by decide)
      [Cell.num 5, Cell.date "31.01.2024"]).mp hmem
    obtain ⟨s, hs, _⟩ := h.2.1
    exact Cell.noConfusion hs

/-! ## Claim C7 — file reading lets an exception escape (code bug) -/

/-- Claim C7 (code bug): `app.py` never imports `logging`, so on any
non-empty batch the `logging.info` call at line 43 raises `NameError` inside
the `try` and the `logging.error` at line 47 re-raises it from the handler;
the exception escapes `read_files_from_upload` instead of the failing file
being skipped.  Only the empty batch returns (the empty dictionary). -/
theorem read_files_batch_raises :
    read_files_from_upload [("file1.xlsx", [{ cols := [], rows := [] }])] =
      Except.error "NameError: name 'logging' is not defined" ∧
    read_files_from_upload [] = Except.ok [] :=
  ⟨rfl, rfl⟩

/-! ## Claim C2 — missing required column aborts the run (code bug) -/

/-- A constant similarity scorer: every candidate scores 100 (> 80), used to
instantiate the abstract fuzzy scorer in concrete pipeline runs. -/
def constScore100 : String → String → Nat := fun _ _ => 100

/-- Claim C2 (code bug): for a matched pair whose Fundline table lacks the
required measure column 'Erwartete Prov. Whg' after mapping, `compare_data`
raises `KeyError` from the `groupby` at app.py line 132 — which runs BEFORE
the required-column check at line 136 — instead of skipping the pair with a
"required columns not found" report; the error aborts the whole run, so no
remaining pair would be processed. -/
theorem missing_required_column_raises :
    compare_data constScore100
      [("fund.xlsx",
        { cols := [Cell.str "Isin Code", Cell.str "Date"],
          rows := [[Cell.str "DE0001", Cell.date "2024-01-31"]] })]
      [("partner.xlsx",
        { cols := [Cell.str "Isin Code", Cell.str "Date", Cell.str "Provision"],
          rows := [[Cell.str "DE0001", Cell.date "2024-01-31", Cell.num 50]] })]
      column_mappings =
      Except.error "KeyError: Erwartete Prov. Whg" := by
  decide

/-! ## Claim C1 — empty-overlap runs are conflated with no-match runs
(corrected) -/

/-- A Fundline table whose single (identifier, period) key is disjoint from
the partner side's. -/
def c1FundTable : Table :=
  { cols := [Cell.str "Isin Code", Cell.str "Date", Cell.str "Erwartete Prov. Whg"],
    rows := [[Cell.str "DE0001", Cell.date "2024-01-31", Cell.num 100]] }

/-- The partner table for the no-overlap scenario: its identifier set is
disjoint from `c1FundTable`'s. -/
def c1ExcelTable : Table :=
  { cols := [Cell.str "Isin Code", Cell.str "Date", Cell.str "Provision"],
    rows := [[Cell.str "FR0001", Cell.date "2024-01-31", Cell.num 50]] }

/-- Counterexample to C1 as stated: the two files are matched, their
aggregated tables have disjoint keys, yet the run's output is the empty
artifact list — exactly the output of a run in which no files were matched at
all — and the UI consequently renders the same "No discrepancies found."
message in both cases: the empty comparison is skipped by the
`if not comparison_df.empty` guard at line 169, with no empty-detail flag. -/
theorem no_overlap_indistinguishable_from_no_match :
    match_files constScore100 ["a.xlsx"] ["b.xlsx"] =
      Except.ok [("a.xlsx", "b.xlsx")] ∧
    compare_data constScore100 [("a.xlsx", c1FundTable)] [("b.xlsx", c1ExcelTable)]
        column_mappings =
      Except.ok ([], [("a.xlsx", c1FundTable)], [("b.xlsx", c1ExcelTable)]) ∧
    compare_data constScore100 [] [] column_mappings = Except.ok ([], [], []) ∧
    render_results [] = "No discrepancies found." := by
  refine ⟨by decide, by decide, by decide, rfl⟩

/-! ## Claim C6 — fuzzy-match threshold (confirmed) -/

/-- The best similarity score seen by `match_files` for a Fundline file over
the candidate set (0 when there is no candidate): the scorer is applied
between extension-stripped, case-folded names. -/
def bestScoreOf (score : String → String → Nat) (f : String) (es : List String) : Nat :=
  ((bestOf score (lowerStr (splitextBase f))
    (es.map fun e => lowerStr (splitextBase e))).map Prod.snd).getD 0

theorem bestOf_isSome (score : String → String → Nat) (q : String) {l : List String}
    (h : l ≠ []) : ∃ p, bestOf score q l = some p := by
  cases l with
  | nil => exact absurd rfl h
  | cons c cs => exact ⟨_, rfl⟩

theorem bestOf_foldl_mem (score : String → String → Nat) (q : String) :
    ∀ (cs : List String) (b : String × Nat),
      (cs.foldl (fun b c2 => if score q c2 > b.2 then (c2, score q c2) else b) b).1 = b.1 ∨
      (cs.foldl (fun b c2 => if score q c2 > b.2 then (c2, score q c2) else b) b).1 ∈ cs
  | [], _ => Or.inl rfl
  | c :: cs, b => by
      rw [List.foldl_cons]
      rcases bestOf_foldl_mem score q cs (if score q c > b.2 then (c, score q c) else b)
        with h | h
      · by_cases hc : score q c > b.2
        · right
          rw [h]
          simp [hc]
        · left
          rw [h]
          simp [hc]
      · right
        exact List.mem_cons_of_mem _ h

theorem bestOf_fst_mem (score : String → String → Nat) (q : String)
    {l : List String} {b : String} {sc : Nat} (h : bestOf score q l = some (b, sc)) :
    b ∈ l := by
  cases l with
  | nil => exact absurd h (by simp [bestOf])
  | cons c cs =>
      have hf : (cs.foldl (fun b c2 => if score q c2 > b.2 then (c2, score q c2) else b)
          (c, score q c)) = (b, sc) := by
        simpa [bestOf] using h
      rcases bestOf_foldl_mem score q cs (c, score q c) with h1 | h1 <;> rw [hf] at h1
      · have hbc : b = c := h1
        rw [hbc]
        exact List.mem_cons_self c cs
      · exact List.mem_cons_of_mem c h1

/-- Claim C6: for a Fundline file and a non-empty candidate set, the File
Matcher emits a pair for that file iff the best similarity score over
extension-stripped, case-folded names strictly exceeds 80; a best score of at
most 80 leaves the file unmatched (the batch result is unchanged), and a best
score above 80 contributes exactly one pair with a Partner file from the
candidate set. -/
theorem matcher_threshold_spec (score : String → String → Nat) (f : String)
    (fs es : List String) (rest : List (String × String)) (hes : es ≠ [])
    (hrest : match_files score fs es = Except.ok rest) :
    (bestScoreOf score f es ≤ 80 → match_files score (f :: fs) es = Except.ok rest) ∧
    (80 < bestScoreOf score f es →
      ∃ e, e ∈ es ∧ match_files score (f :: fs) es = Except.ok ((f, e) :: rest)) := by
  have hmap : es.map (fun e => lowerStr (splitextBase e)) ≠ [] := by
    simpa using hes
  obtain ⟨⟨bm, sc⟩, hb⟩ := bestOf_isSome score (lowerStr (splitextBase f)) hmap
  have hsc : bestScoreOf score f es = sc := by
    rw [bestScoreOf, hb]
    rfl
  constructor
  · intro hle
    have hngt : ¬sc > 80 := by omega
    simp only [match_files, hb, hrest, if_neg hngt]
  · intro hgt
    have hscgt : sc > 80 := by omega
    have hbm : bm ∈ es.map fun e => lowerStr (splitextBase e) :=
      bestOf_fst_mem score (lowerStr (splitextBase f)) hb
    obtain ⟨e0, he0, heq⟩ := List.mem_map.mp hbm
    have hsome : (es.find? fun e => decide (lowerStr (splitextBase e) = bm)).isSome := by
      rw [List.find?_isSome]
      exact ⟨e0, he0, by simp [heq]⟩
    obtain ⟨e, he⟩ := Option.isSome_iff_exists.mp hsome
    refine ⟨e, List.mem_of_find?_eq_some he, ?_⟩
    simp only [match_files, hb, hrest, if_pos hscgt, he]

/-- Witness for C6 at the spec's own test vector: with a scorer valuing the
matching candidate at 95 the pair is emitted with the first candidate, and
with a scorer valuing every candidate at 60 no pair is emitted. -/
theorem matcher_threshold_spec_witness :
    (∃ e, e ∈ ["ABC_Report_Q1.xlsx", "XYZ_Unrelated.xlsx"] ∧
      match_files (fun _ c => if c = "abc_report_q1" then 95 else 60)
          ["Q1_Report_ABC.xlsx"] ["ABC_Report_Q1.xlsx", "XYZ_Unrelated.xlsx"] =
        Except.ok [("Q1_Report_ABC.xlsx", e)]) ∧
    match_files (fun _ _ => 60)
        ["Q1_Report_ABC.xlsx"] ["ABC_Report_Q1.xlsx", "XYZ_Unrelated.xlsx"] =
      Except.ok [] := by
  constructor
  · exact (matcher_threshold_spec (fun _ c => if c = "abc_report_q1" then 95 else 60)
      "Q1_Report_ABC.xlsx" [] ["ABC_Report_Q1.xlsx", "XYZ_Unrelated.xlsx"] []
      (by decide) rfl).2 (by decide)
  · exact (matcher_threshold_spec (fun _ _ => 60)
      "Q1_Report_ABC.xlsx" [] ["ABC_Report_Q1.xlsx", "XYZ_Unrelated.xlsx"] []
      (by decide) rfl).1 (by decide)

/-! ## Claim C8 — month/year date synthesis happens before header
resolution (confirmed) -/

theorem idxOf?_lt_length {x : Cell} :
    ∀ {l : List Cell} {i : Nat}, idxOf? x l = some i → i < l.length
  | [], i, h => by simp [idxOf?] at h
  | c :: cs, i, h => by
      by_cases hc : c = x
      · simp only [idxOf?, if_pos hc, Option.some.injEq] at h
        simp only [List.length_cons]
        omega
      · simp only [idxOf?, if_neg hc] at h
        cases hrec : idxOf? x cs with
        | none => rw [hrec] at h; simp at h
        | some j =>
            rw [hrec] at h
            simp only [Option.map_some', Option.some.injEq] at h
            have hj : j < cs.length := idxOf?_lt_length hrec
            simp only [List.length_cons]
            omega

theorem idxOf?_append_self {x : Cell} :
    ∀ {l : List Cell}, idxOf? x l = none → idxOf? x (l ++ [x]) = some l.length
  | [], _ => by simp [idxOf?]
  | c :: cs, h => by
      by_cases hc : c = x
      · simp [idxOf?, if_pos hc] at h
      · simp only [idxOf?, if_neg hc] at h
        have hrec : idxOf? x cs = none := by
          cases hcs : idxOf? x cs with
          | none => rfl
          | some j => rw [hcs] at h; simp at h
        rw [List.cons_append]
        simp only [idxOf?, if_neg hc]
        rw [idxOf?_append_self hrec]
        simp

theorem getD_set_self :
    ∀ (l : List Cell) (i : Nat) (v : Cell), i < l.length →
      (l.set i v).getD i Cell.null = v
  | [], _, _, h => absurd h (by simp)
  | _ :: _, 0, v, _ => rfl
  | _ :: l, i + 1, v, h => getD_set_self l i v (by simpa using h)

theorem getD_append_self :
    ∀ (l : List Cell) (v : Cell), (l ++ [v]).getD l.length Cell.null = v
  | [], v => rfl
  | _ :: l, v => getD_append_self l v

theorem zipWith_set_getD (i : Nat) :
    ∀ (rows : List (List Cell)) (vals : List Cell), vals.length = rows.length →
      (∀ r ∈ rows, i < r.length) →
      (rows.zipWith (fun r v => r.set i v) vals).map (fun r => r.getD i Cell.null) = vals
  | [], [], _, _ => rfl
  | [], _ :: _, h, _ => absurd h (by simp)
  | _ :: _, [], h, _ => absurd h (by simp)
  | r :: rs, v :: vs, h, hwf => by
      simp only [List.zipWith_cons_cons, List.map_cons]
      rw [getD_set_self r i v (hwf r (List.mem_cons_self r rs))]
      rw [zipWith_set_getD i rs vs (by simpa using h)
        (fun x hx => hwf x (List.mem_cons_of_mem r hx))]

theorem zipWith_append_getD (n : Nat) :
    ∀ (rows : List (List Cell)) (vals : List Cell), vals.length = rows.length →
      (∀ r ∈ rows, r.length = n) →
      (rows.zipWith (fun r v => r ++ [v]) vals).map (fun r => r.getD n Cell.null) = vals
  | [], [], _, _ => rfl
  | [], _ :: _, h, _ => absurd h (by simp)
  | _ :: _, [], h, _ => absurd h (by simp)
  | r :: rs, v :: vs, h, hwf => by
      simp only [List.zipWith_cons_cons, List.map_cons]
      rw [zipWith_append_getD n rs vs (by simpa using h)
        (fun x hx => hwf x (List.mem_cons_of_mem r hx))]
      have hr : r.length = n := hwf r (List.mem_cons_self r rs)
      congr 1
      rw [← hr]
      exact getD_append_self r v

/-- Reading back a column just assigned by `setCol` yields the assigned
values, on a rectangular table with as many values as rows. -/
theorem getCol_setCol (t : Table) (name : String) (vals : List Cell)
    (hlen : vals.length = t.rows.length)
    (hwf : ∀ r ∈ t.rows, r.length = t.cols.length) :
    getCol (setCol t name vals) name = some vals := by
  unfold setCol getCol
  cases hidx : idxOf? (Cell.str name) t.cols with
  | some i =>
      have hi : i < t.cols.length := idxOf?_lt_length hidx
      simp only [hidx, Option.map_some', Option.some.injEq]
      exact zipWith_set_getD i t.rows vals hlen
        (fun r hr => by rw [hwf r hr]; exact hi)
  | none =>
      simp only [idxOf?_append_self hidx, Option.map_some', Option.some.injEq]
      exact zipWith_append_getD t.cols.length t.rows vals hlen hwf

/-- Claim C8: on a table having both a "Statement Month" and a "Statement
Year" column, `date_converter` synthesizes for every row a `Date` value by
concatenating the month and year cell texts with a dash and parsing the
result as month-year; and in the per-file reading pipeline this pre-pass is
applied to the sheet before header resolution (`set_correct_headers` receives
the `date_converter` output). -/
theorem date_prepass_spec (t : Table) (mi yi : Nat)
    (hm : idxOf? (Cell.str "Statement Month") t.cols = some mi)
    (hy : idxOf? (Cell.str "Statement Year") t.cols = some yi)
    (hwf : ∀ r ∈ t.rows, r.length = t.cols.length) :
    getCol (date_converter t) "Date" =
      some (t.rows.map fun r =>
        Cell.date (pyStr (r.getD mi Cell.null) ++ "-" ++ pyStr (r.getD yi Cell.null))) ∧
    ∀ rest, ∃ tail,
      read_one_file (t :: rest) =
        { cols := (set_correct_headers (date_converter t) column_mappings).cols,
          rows := (set_correct_headers (date_converter t) column_mappings).rows ++ tail } := by
  constructor
  · have hdc : date_converter t =
        setCol t "Date" (t.rows.map fun r =>
          Cell.date (pyStr (r.getD mi Cell.null) ++ "-" ++ pyStr (r.getD yi Cell.null))) := by
      unfold date_converter
      rw [hm, hy]
    rw [hdc]
    exact getCol_setCol t "Date" _ (by simp) hwf
  · intro rest
    exact ⟨(rest.map fun u => (date_converter u).rows).flatten, rfl⟩

/-- Witness for C8 on a one-row table with split month and year columns. -/
theorem date_prepass_spec_witness :
    getCol (date_converter
      { cols := [Cell.str "Statement Month", Cell.str "Statement Year"],
        rows := [[Cell.num 1, Cell.num 2024]] }) "Date" =
      some (([[Cell.num 1, Cell.num 2024]] : List (List Cell)).map fun r =>
        Cell.date (pyStr (r.getD 0 Cell.null) ++ "-" ++ pyStr (r.getD 1 Cell.null))) :=
  (date_prepass_spec
    { cols := [Cell.str "Statement Month", Cell.str "Statement Year"],
      rows := [[Cell.num 1, Cell.num 2024]] } 0 1 (by decide) (by decide)
    (by decide)).1

/-! ## Claim C10 — the Schema Mapper renames in place, mutating the caller's
tables (confirmed) -/

theorem aggregate_step_snd (col : String) (acc : FileData × FileData)
    (p : String × Table) :
    (aggregate_step col acc p).2 =
      storeTable acc.2 p.1 (rename_columns p.2 column_mappings) := by
  unfold aggregate_step
  dsimp only
  split
  · split <;> rfl
  · rfl

theorem aggregate_fold_snd (col : String) :
    ∀ (l : FileData) (a s : FileData),
      (l.foldl (aggregate_step col) (a, s)).2 =
        l.foldl (fun s2 p => storeTable s2 p.1 (rename_columns p.2 column_mappings)) s
  | [], _, _ => rfl
  | p :: l, a, s => by
      rw [List.foldl_cons, List.foldl_cons,
        ← @Prod.mk.eta _ _ (aggregate_step col (a, s) p), aggregate_step_snd]
      exact aggregate_fold_snd col l _ _

theorem storeTable_of_key_not_mem :
    ∀ (fd : FileData) (k : String) (v : Table), k ∉ fd.map Prod.fst →
      storeTable fd k v = fd
  | [], _, _, _ => rfl
  | p :: l, k, v, h => by
      simp only [List.map_cons, List.mem_cons, not_or] at h
      simp only [storeTable, List.map_cons]
      rw [if_neg (fun hc => h.1 (hc.symm))]
      have hrec := storeTable_of_key_not_mem l k v h.2
      simp only [storeTable] at hrec
      rw [hrec]

theorem storeTable_append (a b : FileData) (k : String) (v : Table) :
    storeTable (a ++ b) k v = storeTable a k v ++ storeTable b k v := by
  simp [storeTable]

/-- Folding the per-file store over a key-nodup dictionary that is also the
initial state replaces every stored table by its transformed version. -/
theorem foldl_store_spec (F : Table → Table) :
    ∀ (l pre : FileData), ((pre ++ l).map Prod.fst).Nodup →
      l.foldl (fun s p => storeTable s p.1 (F p.2)) (pre ++ l) =
        pre ++ l.map fun p => (p.1, F p.2)
  | [], pre, _ => by simp
  | p :: l, pre, h => by
      have hkeys : ((pre ++ p :: l).map Prod.fst).Nodup := h
      rw [List.map_append, List.map_cons] at hkeys
      have hd := List.disjoint_of_nodup_append hkeys
      have hnotpre : p.1 ∉ pre.map Prod.fst := fun hc =>
        hd hc (List.mem_cons_self _ _)
      have hnotl : p.1 ∉ l.map Prod.fst := by
        have h2 := (List.nodup_append.mp hkeys).2.1
        exact (List.nodup_cons.mp h2).1
      have hstep : storeTable (pre ++ p :: l) p.1 (F p.2) =
          (pre ++ [(p.1, F p.2)]) ++ l := by
        rw [storeTable_append, storeTable_of_key_not_mem pre p.1 (F p.2) hnotpre]
        have hl : storeTable (p :: l) p.1 (F p.2) = (p.1, F p.2) :: l := by
          have hrec := storeTable_of_key_not_mem l p.1 (F p.2) hnotl
          simp only [storeTable] at hrec ⊢
          simp [hrec]
        rw [hl]
        simp
      have hnd2 : (((pre ++ [(p.1, F p.2)]) ++ l).map Prod.fst).Nodup := by
        have : ((pre ++ [(p.1, F p.2)]) ++ l).map Prod.fst =
            (pre ++ p :: l).map Prod.fst := by
          simp
        rw [this]
        exact h
      rw [List.foldl_cons, hstep, foldl_store_spec F l (pre ++ [(p.1, F p.2)]) hnd2]
      simp

/-- Claim C10: `rename_columns` uses `inplace=True`, so after `aggregate_data`
runs, every DataFrame stored in the caller-supplied per-file dictionary has
been replaced by its column-renamed version (with unique file names, as dict
keys are); and renaming genuinely rewrites source-native labels to canonical
ones, so the original column names are not preserved for a later consumer —
witnessed by a table with 'ISIN'/'Datum'/'Betrag (EUR)' columns becoming
'Isin Code'/'Date'/'Provision'.  `compare_data` applies the same in-place
`rename_columns` (plus the in-place date coercion) to the tables of every
matched pair (see `processPair`). -/
theorem schema_mapper_in_place_spec (data : FileData) (col : String)
    (hnd : (data.map Prod.fst).Nodup) :
    (aggregate_data data col).2 =
      data.map (fun p => (p.1, rename_columns p.2 column_mappings)) ∧
    rename_columns
        { cols := [Cell.str "ISIN", Cell.str "Datum", Cell.str "Betrag (EUR)"],
          rows := [[Cell.str "DE0001", Cell.str "31.01.2024", Cell.num 5]] }
        column_mappings =
      { cols := [Cell.str "Isin Code", Cell.str "Date", Cell.str "Provision"],
        rows := [[Cell.str "DE0001", Cell.str "31.01.2024", Cell.num 5]] } ∧
    rename_columns
        { cols := [Cell.str "ISIN", Cell.str "Datum", Cell.str "Betrag (EUR)"],
          rows := [[Cell.str "DE0001", Cell.str "31.01.2024", Cell.num 5]] }
        column_mappings ≠
      { cols := [Cell.str "ISIN", Cell.str "Datum", Cell.str "Betrag (EUR)"],
        rows := [[Cell.str "DE0001", Cell.str "31.01.2024", Cell.num 5]] } := by
  refine ⟨?_, by decide, by decide⟩
  rw [aggregate_data, aggregate_fold_snd col data [] data]
  have h := foldl_store_spec (fun t => rename_columns t column_mappings) data []
    (by simpa using hnd)
  simpa using h

/-- Witness for C10: after `aggregate_data` on a one-file dictionary, the
stored table is the renamed one. -/
theorem schema_mapper_in_place_spec_witness :
    (aggregate_data
      [("f.xlsx",
        { cols := [Cell.str "ISIN", Cell.str "Datum", Cell.str "Betrag (EUR)"],
          rows := [[Cell.str "DE0001", Cell.str "31.01.2024", Cell.num 5]] })]
      "Provision").2 =
      [("f.xlsx", rename_columns
        { cols := [Cell.str "ISIN", Cell.str "Datum", Cell.str "Betrag (EUR)"],
          rows := [[Cell.str "DE0001", Cell.str "31.01.2024", Cell.num 5]] }
        column_mappings)] := by
  have h := (schema_mapper_in_place_spec
    [("f.xlsx",
      { cols := [Cell.str "ISIN", Cell.str "Datum", Cell.str "Betrag (EUR)"],
        rows := [[Cell.str "DE0001", Cell.str "31.01.2024", Cell.num 5]] })]
    "Provision" (by decide)).1
  simpa using h

/-! ## Claim C1 (amended part) — helper lemmas and the general theorem -/

theorem groupbySum_ok_elim {t : Table} {keys : List String} {val : String} {g : Table}
    (h : groupbySum t keys val = Except.ok g) :
    ∃ kIdxs vi, colIdxsE t keys = Except.ok kIdxs ∧ colIdxE t val = Except.ok vi ∧
      g = groupbySumCore t kIdxs vi keys val := by
  unfold groupbySum at h
  cases hk : colIdxsE t keys with
  | error e => rw [hk] at h; simp at h
  | ok kIdxs =>
      rw [hk] at h
      cases hv : colIdxE t val with
      | error e => rw [hv] at h; simp at h
      | ok vi =>
          rw [hv] at h
          simp only [Except.ok.injEq] at h
          exact ⟨kIdxs, vi, rfl, rfl, h.symm⟩

theorem colIdxsE_length {t : Table} :
    ∀ {keys : List String} {kIdxs : List Nat},
      colIdxsE t keys = Except.ok kIdxs → kIdxs.length = keys.length
  | [], kIdxs, h => by
      simp only [colIdxsE, Except.ok.injEq] at h
      simp [← h]
  | k :: ks, kIdxs, h => by
      unfold colIdxsE at h
      cases h1 : colIdxE t k with
      | error e => rw [h1] at h; simp at h
      | ok i =>
          rw [h1] at h
          cases h2 : colIdxsE t ks with
          | error e => rw [h2] at h; simp at h
          | ok rest =>
              rw [h2] at h
              simp only [Except.ok.injEq] at h
              rw [← h]
              simp [colIdxsE_length h2]

theorem distinctKeys_foldl_mem :
    ∀ (l acc : List (List Cell)) (x : List Cell),
      x ∈ l.foldl (fun acc k => if k ∈ acc then acc else acc ++ [k]) acc →
      x ∈ acc ∨ x ∈ l
  | [], _, _, h => Or.inl h
  | k :: l, acc, x, h => by
      rw [List.foldl_cons] at h
      rcases distinctKeys_foldl_mem l _ x h with h1 | h1
      · by_cases hk : k ∈ acc
        · rw [if_pos hk] at h1
          exact Or.inl h1
        · rw [if_neg hk] at h1
          rcases List.mem_append.mp h1 with h2 | h2
          · exact Or.inl h2
          · right
            simp only [List.mem_singleton] at h2
            simp [h2]
      · right
        exact List.mem_cons_of_mem _ h1

theorem distinctKeys_subset {l : List (List Cell)} {x : List Cell}
    (h : x ∈ distinctKeys l) : x ∈ l := by
  rcases distinctKeys_foldl_mem l [] x h with h1 | h1
  · simp at h1
  · exact h1

theorem groupbySumCore_rows_shape (t : Table) (kIdxs : List Nat) (vi : Nat)
    (keys : List String) (val : String) :
    ∀ r ∈ (groupbySumCore t kIdxs vi keys val).rows,
      ∃ k q, r = k ++ [Cell.num q] ∧ k.length = kIdxs.length := by
  intro r hr
  unfold groupbySumCore at hr
  dsimp only at hr
  obtain ⟨k, hk, hkr⟩ := List.mem_map.mp hr
  refine ⟨k, _, hkr.symm, ?_⟩
  have hsub := distinctKeys_subset hk
  obtain ⟨rr, _, hrr⟩ := List.mem_map.mp hsub
  rw [← hrr]
  simp [keyAt]

theorem mergeInnerCore_rows_mem {t1 t2 : Table} {k1 k2 : List Nat} {r : List Cell}
    (h : r ∈ (mergeInnerCore t1 t2 k1 k2).rows) :
    ∃ r1 ∈ t1.rows, ∃ r2 ∈ t2.rows,
      r = r1 ++ ((List.range t2.cols.length).filter fun i => decide (i ∉ k2)).map
        (fun i => r2.getD i Cell.null) := by
  unfold mergeInnerCore at h
  dsimp only at h
  obtain ⟨l, hl, hrl⟩ := List.mem_flatten.mp h
  obtain ⟨r1, hr1, hl1⟩ := List.mem_map.mp hl
  rw [← hl1] at hrl
  obtain ⟨r2, hr2, hrr⟩ := List.mem_map.mp hrl
  exact ⟨r1, hr1, r2, List.mem_of_mem_filter hr2, hrr.symm⟩

theorem cellsToFloats_ok_of_nums :
    ∀ {cs : List Cell}, (∀ c ∈ cs, ∃ n, c = Cell.num n) →
      ∃ vs, cellsToFloats cs = Except.ok vs
  | [], _ => ⟨[], rfl⟩
  | c :: cs, h => by
      obtain ⟨n, hn⟩ := h c (List.mem_cons_self c cs)
      obtain ⟨vs, hvs⟩ := cellsToFloats_ok_of_nums
        (fun x hx => h x (List.mem_cons_of_mem c hx))
      rw [hn]
      exact ⟨n :: vs, by simp [cellsToFloats, hvs]⟩

theorem setCol_rows_nil {t : Table} (h : t.rows = []) (name : String)
    (vals : List Cell) : (setCol t name vals).rows = [] := by
  unfold setCol
  cases idxOf? (Cell.str name) t.cols <;> simp [h]


/-- Claim C1 (amended): a matched pair whose two aggregated tables have
disjoint (identifier, period) key sets yields NO artifact at all — the empty
comparison is skipped by the `if not comparison_df.empty` guard (line 169) —
so such a pair contributes to the run exactly what an unmatched pair does,
and a run consisting only of such pairs returns the empty artifact list,
rendered by the UI as the same "No discrepancies found." message as a run in
which no files were matched (see the counterexample theorem for the
conflation at the pipeline level). -/
theorem empty_join_yields_no_artifact (cm : List (String × List String))
    (ff ef : String) (fdf0 edf0 fg eg : Table)
    (hf : groupbySum (convert_date_column (rename_columns fdf0 cm) "Date")
        ["Isin Code", "Date"] "Erwartete Prov. Whg" = Except.ok fg)
    (he : groupbySum (convert_date_column (rename_columns edf0 cm) "Date")
        ["Isin Code", "Date"] "Provision" = Except.ok eg)
    (hdisj : ∀ r1 ∈ fg.rows, ∀ r2 ∈ eg.rows, keyAt [0, 1] r1 ≠ keyAt [0, 1] r2) :
    processPair cm ff ef fdf0 edf0 =
      Except.ok (none, convert_date_column (rename_columns fdf0 cm) "Date",
        convert_date_column (rename_columns edf0 cm) "Date") := by
  obtain ⟨kf, vf, hkf, hvf, hgf⟩ := groupbySum_ok_elim hf
  obtain ⟨ke, ve, hke, hve, hge⟩ := groupbySum_ok_elim he
  have hfc : fg.cols =
      [Cell.str "Isin Code", Cell.str "Date", Cell.str "Erwartete Prov. Whg"] := by
    rw [hgf]; rfl
  have hec : eg.cols =
      [Cell.str "Isin Code", Cell.str "Date", Cell.str "Provision"] := by
    rw [hge]; rfl
  have hrows : (mergeInnerCore fg eg [0, 1] [0, 1]).rows = [] := by
    unfold mergeInnerCore
    dsimp only
    rw [List.flatten_eq_nil_iff]
    intro l hl
    obtain ⟨r1, hr1, hl1⟩ := List.mem_map.mp hl
    rw [← hl1]
    rw [List.map_eq_nil_iff, List.filter_eq_nil_iff]
    intro r2 hr2
    simp only [decide_eq_true_eq]
    exact hdisj r1 hr1 r2 hr2
  have hcols : (mergeInnerCore fg eg [0, 1] [0, 1]).cols =
      [Cell.str "Isin Code", Cell.str "Date", Cell.str "Erwartete Prov. Whg",
       Cell.str "Provision"] := by
    unfold mergeInnerCore
    dsimp only
    rw [hfc, hec]
    decide
  have hcond : (Cell.str "Isin Code" ∈ fg.cols ∧ Cell.str "Date" ∈ fg.cols ∧
      Cell.str "Isin Code" ∈ eg.cols ∧ Cell.str "Date" ∈ eg.cols) := by
    rw [hfc, hec]
    decide
  have hmm : mergeInner fg eg ["Isin Code", "Date"] =
      Except.ok (mergeInnerCore fg eg [0, 1] [0, 1]) := by
    have hA : colIdxsE fg ["Isin Code", "Date"] = Except.ok [0, 1] := by
      simp [colIdxsE, colIdxE, hfc, idxOf?]
    have hB : colIdxsE eg ["Isin Code", "Date"] = Except.ok [0, 1] := by
      simp [colIdxsE, colIdxE, hec, idxOf?]
    simp [mergeInner, hA, hB]
  have hnf : ¬ Cell.str "Erwartete Prov. Whg_Fundline" ∈
      (mergeInnerCore fg eg [0, 1] [0, 1]).cols := by
    rw [hcols]; decide
  have hne : ¬ Cell.str "Provision_Excel" ∈
      (mergeInnerCore fg eg [0, 1] [0, 1]).cols := by
    rw [hcols]; decide
  have hfcolE : colIdxE (mergeInnerCore fg eg [0, 1] [0, 1]) "Erwartete Prov. Whg" =
      Except.ok 2 := by
    simp [colIdxE, hcols, idxOf?]
  have hecolE : colIdxE (mergeInnerCore fg eg [0, 1] [0, 1]) "Provision" =
      Except.ok 3 := by
    simp [colIdxE, hcols, idxOf?]
  have ha1 : astypeFloatCol (mergeInnerCore fg eg [0, 1] [0, 1]) "Erwartete Prov. Whg" =
      Except.ok [] := by
    simp [astypeFloatCol, hfcolE, hrows, cellsToFloats]
  have ha2 : astypeFloatCol (mergeInnerCore fg eg [0, 1] [0, 1]) "Provision" =
      Except.ok [] := by
    simp [astypeFloatCol, hecolE, hrows, cellsToFloats]
  have hq1 : groupbySum fg ["Isin Code"] "Erwartete Prov. Whg" =
      Except.ok (groupbySumCore fg [0] 2 ["Isin Code"] "Erwartete Prov. Whg") := by
    have hA : colIdxsE fg ["Isin Code"] = Except.ok [0] := by
      simp [colIdxsE, colIdxE, hfc, idxOf?]
    have hB : colIdxE fg "Erwartete Prov. Whg" = Except.ok 2 := by
      simp [colIdxE, hfc, idxOf?]
    simp [groupbySum, hA, hB]
  have hq2 : groupbySum eg ["Isin Code"] "Provision" =
      Except.ok (groupbySumCore eg [0] 2 ["Isin Code"] "Provision") := by
    have hA : colIdxsE eg ["Isin Code"] = Except.ok [0] := by
      simp [colIdxsE, colIdxE, hec, idxOf?]
    have hB : colIdxE eg "Provision" = Except.ok 2 := by
      simp [colIdxE, hec, idxOf?]
    simp [groupbySum, hA, hB]
  have hqm : mergeInner (groupbySumCore fg [0] 2 ["Isin Code"] "Erwartete Prov. Whg")
      (groupbySumCore eg [0] 2 ["Isin Code"] "Provision") ["Isin Code"] =
      Except.ok (mergeInnerCore
        (groupbySumCore fg [0] 2 ["Isin Code"] "Erwartete Prov. Whg")
        (groupbySumCore eg [0] 2 ["Isin Code"] "Provision") [0] [0]) := rfl
  have hQmem : ∀ r ∈ (mergeInnerCore
      (groupbySumCore fg [0] 2 ["Isin Code"] "Erwartete Prov. Whg")
      (groupbySumCore eg [0] 2 ["Isin Code"] "Provision") [0] [0]).rows,
      ∃ a q1 q2, r = [a, Cell.num q1, Cell.num q2] := by
    intro r hr
    obtain ⟨r1, hr1, r2, hr2, hreq⟩ := mergeInnerCore_rows_mem hr
    obtain ⟨k1, q1, hk1, hl1⟩ := groupbySumCore_rows_shape _ _ _ _ _ r1 hr1
    obtain ⟨k2, q2, hk2, hl2⟩ := groupbySumCore_rows_shape _ _ _ _ _ r2 hr2
    match k1, hl1 with
    | [a], _ =>
        match k2, hl2 with
        | [b], _ =>
            refine ⟨a, q1, q2, ?_⟩
            rw [hreq, hk1, hk2]
            rfl
  have hqp : ∃ vs, ratCol (mergeInnerCore
      (groupbySumCore fg [0] 2 ["Isin Code"] "Erwartete Prov. Whg")
      (groupbySumCore eg [0] 2 ["Isin Code"] "Provision") [0] [0]) "Provision" =
      Except.ok vs := by
    unfold ratCol astypeFloatCol
    rw [show colIdxE (mergeInnerCore
      (groupbySumCore fg [0] 2 ["Isin Code"] "Erwartete Prov. Whg")
      (groupbySumCore eg [0] 2 ["Isin Code"] "Provision") [0] [0]) "Provision" =
      Except.ok 2 from rfl]
    apply cellsToFloats_ok_of_nums
    intro c hc
    obtain ⟨r, hr, hrc⟩ := List.mem_map.mp hc
    obtain ⟨a, q1, q2, hr3⟩ := hQmem r hr
    rw [← hrc, hr3]
    exact ⟨q2, rfl⟩
  have hqe : ∃ vs, ratCol (mergeInnerCore
      (groupbySumCore fg [0] 2 ["Isin Code"] "Erwartete Prov. Whg")
      (groupbySumCore eg [0] 2 ["Isin Code"] "Provision") [0] [0])
      "Erwartete Prov. Whg" = Except.ok vs := by
    unfold ratCol astypeFloatCol
    rw [show colIdxE (mergeInnerCore
      (groupbySumCore fg [0] 2 ["Isin Code"] "Erwartete Prov. Whg")
      (groupbySumCore eg [0] 2 ["Isin Code"] "Provision") [0] [0])
      "Erwartete Prov. Whg" = Except.ok 1 from rfl]
    apply cellsToFloats_ok_of_nums
    intro c hc
    obtain ⟨r, hr, hrc⟩ := List.mem_map.mp hc
    obtain ⟨a, q1, q2, hr3⟩ := hQmem r hr
    rw [← hrc, hr3]
    exact ⟨q1, rfl⟩
  obtain ⟨qp, hqp'⟩ := hqp
  obtain ⟨qe, hqe'⟩ := hqe
  unfold processPair
  simp only [hf, he]
  rw [if_pos hcond]
  simp only [hmm]
  rw [if_neg hnf, if_neg hne]
  simp only [ha1, ha2, hq1, hq2, hqm, hqp', hqe']
  have hfinal : (setCol (setCol (setCol (mergeInnerCore fg eg [0, 1] [0, 1])
      "Erwartete Prov. Whg" []) "Provision" []) "Difference" []).rows = [] :=
    setCol_rows_nil (setCol_rows_nil (setCol_rows_nil hrows _ _) _ _) _ _
  simp [hfinal]


/-- Witness for the amended C1 on the concrete disjoint-key pair. -/
theorem empty_join_yields_no_artifact_witness :
    processPair column_mappings "a.xlsx" "b.xlsx" c1FundTable c1ExcelTable =
      Except.ok (none,
        convert_date_column (rename_columns c1FundTable column_mappings) "Date",
        convert_date_column (rename_columns c1ExcelTable column_mappings) "Date") :=
  empty_join_yields_no_artifact column_mappings "a.xlsx" "b.xlsx"
    c1FundTable c1ExcelTable
    { cols := [Cell.str "Isin Code", Cell.str "Date", Cell.str "Erwartete Prov. Whg"],
      rows := [[Cell.str "DE0001", Cell.date "2024-01-31", Cell.num 100]] }
    { cols := [Cell.str "Isin Code", Cell.str "Date", Cell.str "Provision"],
      rows := [[Cell.str "FR0001", Cell.date "2024-01-31", Cell.num 50]] }
    (by decide) (by decide) (by decide)

end ExcelApp
